import Mathlib

/-!
Shallow embedding of `src/main.mjs` (cards-creator): a CLI pipeline that, for
each input word, fetches a meaning, generates candidate phrases, lets the user
select some, translates the selections concurrently, and optionally exports a
flashcards file.

The LLM backend (`generateObject`) is modelled as an oracle from prompt strings
to raw JSON values (or a service failure); the zod schema validation performed
by `generateObject` is modelled explicitly on the JSON value.  The interactive
checkbox prompt is modelled as an oracle from (word, candidates) to the chosen
subset.  Every external call is recorded in an event trace.
-/

/-- A JSON value, as returned by the structured-generation backend. -/
inductive Json where
  | null
  | bool (b : Bool)
  | num (n : Int)
  | str (s : String)
  | arr (elems : List Json)
  | obj (fields : List (String × Json))

/-- Look up the first field with the given key in a JSON object's field list. -/
def lookupField : List (String × Json) → String → Option Json
  | [], _ => none
  | (k, v) :: rest, key => if k = key then some v else lookupField rest key

/-- zod `z.string()`: accept exactly JSON strings. -/
def asString : Json → Option String
  | .str s => some s
  | _ => none

/-- zod `z.array(z.string())` element check: all elements must be strings. -/
def allStrings : List Json → Option (List String)
  | [] => some []
  | j :: js =>
    match asString j, allStrings js with
    | some s, some ss => some (s :: ss)
    | _, _ => none

/-- zod `z.object({ meaning: z.string() })` applied to a raw JSON value. -/
def parseMeaningObject : Json → Option String
  | .obj fields => (lookupField fields "meaning").bind asString
  | _ => none

/-- zod `z.object({ phrases: z.array(z.string()) })` applied to a raw JSON value.
No bound on the array length is imposed. -/
def parsePhrasesObject : Json → Option (List String)
  | .obj fields =>
    match lookupField fields "phrases" with
    | some (.arr elems) => allStrings elems
    | _ => none
  | _ => none

/-- zod `z.object({ translation: z.string() })` applied to a raw JSON value. -/
def parseTranslationObject : Json → Option String
  | .obj fields => (lookupField fields "translation").bind asString
  | _ => none

/-- The prompt built by `getWordMeaning` (src/main.mjs line 84). -/
def meaningPrompt (word : String) : String :=
  "Provide the meaning of the word \"" ++ word ++ "\" in English."

/-- The prompt built by `generatePhrases` (src/main.mjs line 60). -/
def phrasesPrompt (word : String) (numPhrases : Int) : String :=
  "Generate " ++ toString numPhrases ++
    " natural, contextually relevant phrases that native English speakers might use in daily life, incorporating the word \"" ++
    word ++ "\" in a meaningful way."

/-- The prompt built by `translatePhrase` (src/main.mjs line 72). -/
def translatePrompt (phrase : String) : String :=
  "Translate the following phrase into natural, idiomatic Portuguese that a native speaker would use: \"" ++
    phrase ++ "\""

/-- External collaborators: the structured-generation backend (prompt to raw
JSON or failure) and the interactive checkbox selection (word and candidate
list to chosen subset; it has no failure path). -/
structure Collaborators where
  llm : String → Except String Json
  selectFrom : String → List String → List String

/-- `getWordMeaning(word)` (src/main.mjs lines 78-88): call the backend with
the meaning prompt and validate the response shape. -/
def getWordMeaning (C : Collaborators) (word : String) : Except String String :=
  match C.llm (meaningPrompt word) with
  | .error e => .error e
  | .ok j =>
    match parseMeaningObject j with
    | some m => .ok m
    | none => .error "response did not match the expected schema"

/-- `generatePhrases(word, numPhrases)` (src/main.mjs lines 54-64): call the
backend with the phrases prompt and validate that the response is an object
whose `phrases` field is an array of strings.  The array is returned
unchanged. -/
def generatePhrases (C : Collaborators) (word : String) (numPhrases : Int) :
    Except String (List String) :=
  match C.llm (phrasesPrompt word numPhrases) with
  | .error e => .error e
  | .ok j =>
    match parsePhrasesObject j with
    | some ps => .ok ps
    | none => .error "response did not match the expected schema"

/-- `translatePhrase(phrase)` (src/main.mjs lines 66-76). -/
def translatePhrase (C : Collaborators) (phrase : String) : Except String String :=
  match C.llm (translatePrompt phrase) with
  | .error e => .error e
  | .ok j =>
    match parseTranslationObject j with
    | some t => .ok t
    | none => .error "response did not match the expected schema"

/-- Raw program input: the `-w` and `-n` flag values as minimist delivers them
(a string when present), the `--flashcards` boolean, and whether the required
`DEEPSEEK_API_KEY` credential is present in the environment. -/
structure RawInput where
  wOpt : Option String
  nOpt : Option String
  flashcards : Bool
  credentialPresent : Bool

/-- JavaScript `String.prototype.split(",")`: split on every comma, keeping
empty segments; the empty string splits to `[""]`. -/
def splitCharsOnComma : List Char → List String
  | [] => [""]
  | c :: cs =>
    match splitCharsOnComma cs with
    | [] => if c = ',' then ["", ""] else [String.mk [c]]
    | r :: rs =>
      if c = ',' then "" :: r :: rs
      else String.mk (c :: r.data) :: rs

/-- JS `s.split(",")` on a Lean string. -/
def jsSplitOnComma (s : String) : List String :=
  splitCharsOnComma s.data

/-- Numeric value of a decimal digit character. -/
def digitVal (c : Char) : Nat := c.toNat - 48

/-- Decimal value of a digit list, most significant first. -/
def parseDigits (cs : List Char) : Nat :=
  cs.foldl (fun acc c => acc * 10 + digitVal c) 0

/-- JavaScript `Number.parseInt(s, 10)`: skip leading whitespace, take an
optional sign, then the longest decimal-digit prefix; `none` models `NaN`
(no digits found). -/
def jsParseInt10 (s : String) : Option Int :=
  let cs := s.data.dropWhile Char.isWhitespace
  match cs with
  | '-' :: rest =>
    let ds := rest.takeWhile Char.isDigit
    if ds.isEmpty then none else some (-(parseDigits ds : Int))
  | '+' :: rest =>
    let ds := rest.takeWhile Char.isDigit
    if ds.isEmpty then none else some (parseDigits ds : Int)
  | rest =>
    let ds := rest.takeWhile Char.isDigit
    if ds.isEmpty then none else some (parseDigits ds : Int)

/-- `const words = args.w ? args.w.split(",") : []` (src/main.mjs line 38);
the empty string is falsy in JS. -/
def wordsOf (inp : RawInput) : List String :=
  match inp.wOpt with
  | some s => if s = "" then [] else jsSplitOnComma s
  | none => []

/-- `const numPhrases = args.n ? Number.parseInt(args.n, 10) : 5`
(src/main.mjs line 39); `none` models `NaN`. -/
def numPhrasesOf (inp : RawInput) : Option Int :=
  match inp.nOpt with
  | some s => if s = "" then some 5 else jsParseInt10 s
  | none => some 5

/-- The validated configuration consumed by the pipeline. -/
structure Config where
  words : List String
  numPhrases : Int
  flashcards : Bool
deriving DecidableEq

/-- The top-level validation (src/main.mjs lines 19-52): credential check,
then empty-word-list check, then NaN / non-positive phrase-count check.  Each
failure prints a descriptive message and exits with status 1 before any
collaborator call. -/
def validateConfig (inp : RawInput) : Except String Config :=
  if inp.credentialPresent = false then
    .error "Please set the DEEPSEEK_API_KEY environment variable."
  else if (wordsOf inp).length = 0 then
    .error "No words provided. Please provide a list of words using the -w flag."
  else
    match numPhrasesOf inp with
    | none => .error "Please provide a valid number of phrases using the -n flag."
    | some n =>
      if n ≤ 0 then
        .error "Please provide a valid number of phrases using the -n flag."
      else
        .ok { words := wordsOf inp, numPhrases := n, flashcards := inp.flashcards }

/-- One selected phrase awaiting translation, tagged with its originating
word and that word's meaning (src/main.mjs line 109 pushes
`{ phrase, meaning, word }`). -/
structure PendingTranslation where
  phrase : String
  meaning : String
  word : String
deriving DecidableEq

/-- One translated pair (src/main.mjs line 116 returns
`{ english: phrase, portuguese: translation, meaning, word }`). -/
structure TranslationPair where
  english : String
  portuguese : String
  meaning : String
  word : String
deriving DecidableEq

/-- A collaborator call issued by the pipeline. -/
inductive Event where
  | meaningCall (word : String)
  | phrasesCall (word : String) (numPhrases : Int)
  | selectCall (word : String) (candidates : List String)
  | translateCall (phrase : String)
deriving DecidableEq

/-- Is this event a meaning-lookup call? -/
def Event.isMeaningCall : Event → Bool
  | .meaningCall _ => true
  | _ => false

/-- Is this event a phrase-generation call? -/
def Event.isPhrasesCall : Event → Bool
  | .phrasesCall _ _ => true
  | _ => false

/-- State threaded through the sequential per-word phase: the call trace so
far, the accumulation list `selectedPhrases`, and the console lines printed so
far. -/
structure SeqState where
  events : List Event
  selected : List PendingTranslation
  stdout : List String
deriving DecidableEq

/-- The per-word meaning announcement
`console.log(`\nMeaning of "${word}": ${meaning}\n`)` (src/main.mjs line 95). -/
def meaningLine (word meaning : String) : String :=
  "\nMeaning of \"" ++ word ++ "\": " ++ meaning ++ "\n"

/-- One iteration of the `for (const word of words)` loop (src/main.mjs lines
93-111): meaning lookup, announcement, phrase generation, interactive
selection, then append one PendingTranslation per chosen phrase.  The second
component is `some e` when a collaborator call failed (which aborts the run). -/
def processWord (C : Collaborators) (n : Int) (st : SeqState) (w : String) :
    SeqState × Option String :=
  let st1 : SeqState := { st with events := st.events ++ [.meaningCall w] }
  match getWordMeaning C w with
  | .error e => (st1, some e)
  | .ok meaning =>
    let st2 : SeqState :=
      { st1 with
        stdout := st1.stdout ++ [meaningLine w meaning]
        events := st1.events ++ [.phrasesCall w n] }
    match generatePhrases C w n with
    | .error e => (st2, some e)
    | .ok ps =>
      let chosen := C.selectFrom w ps
      let st3 : SeqState :=
        { st2 with
          events := st2.events ++ [.selectCall w ps]
          selected :=
            st2.selected ++ chosen.map fun p => { phrase := p, meaning := meaning, word := w } }
      (st3, none)

/-- The whole sequential phase: run `processWord` over the word list in input
order; stop at the first collaborator failure. -/
def runSeqFrom (C : Collaborators) (n : Int) (st : SeqState) :
    List String → SeqState × Option String
  | [] => (st, none)
  | w :: ws =>
    match processWord C n st w with
    | (st1, some e) => (st1, some e)
    | (st1, none) => runSeqFrom C n st1 ws

/-- One translation task of the `Promise.all` fan-out (src/main.mjs lines
114-117): translate the phrase, then build the TranslationPair. -/
def translateOne (C : Collaborators) (pt : PendingTranslation) : Except String TranslationPair :=
  match translatePhrase C pt.phrase with
  | .error e => .error e
  | .ok tr =>
    .ok { english := pt.phrase, portuguese := tr, meaning := pt.meaning, word := pt.word }

/-- `Promise.all(selectedPhrases.map(...))` (src/main.mjs lines 113-118): every
task is started; results are gathered by submission index, and any single
failure fails the whole batch with no partial results. -/
def translateAll (C : Collaborators) : List PendingTranslation → Except String (List TranslationPair)
  | [] => .ok []
  | pt :: pts =>
    match translateOne C pt, translateAll C pts with
    | .error e, _ => .error e
    | .ok _, .error e => .error e
    | .ok tp, .ok tps => .ok (tp :: tps)

/-- One block of the final summary (src/main.mjs line 123). -/
def summaryBlock (pair : TranslationPair) : String :=
  "Meaning: " ++ pair.meaning ++ "\nEnglish: " ++ pair.english ++
    "\nPortuguese: " ++ pair.portuguese

/-- `outputContent` (src/main.mjs lines 120-125): summary blocks joined by a
blank line. -/
def outputContent (trs : List TranslationPair) : String :=
  String.intercalate "\n\n" (trs.map summaryBlock)

/-- The three fixed flashcards header lines (src/main.mjs lines 132-134). -/
def headerLines : List String :=
  ["#separator:tab", "#html:true", "#tags column:3"]

/-- One flashcards data line (src/main.mjs line 137): the English phrase with
the word in an inline style marker, a tab, then the meaning. -/
def dataLine (pair : TranslationPair) : String :=
  "\"" ++ pair.english ++ " <b><span style=\"color: rgb(0, 0, 255);\">" ++
    pair.word ++ "</span></b>\"" ++ "\t" ++ pair.meaning

/-- `flashcardsContent` (src/main.mjs lines 131-139): header lines then one
data line per TranslationPair, joined by newline (no trailing newline). -/
def flashcardsContent (trs : List TranslationPair) : String :=
  String.intercalate "\n" (headerLines ++ trs.map dataLine)

/-- Observable outcome of a run: exit status, the collaborator-call trace,
console output, error output, and the content of `flashcards.txt` when it was
written. -/
structure ProgResult where
  exit : Nat
  events : List Event
  stdout : List String
  stderr : List String
  fileWritten : Option String
deriving DecidableEq

/-- `main()` (src/main.mjs lines 90-144) together with the top-level
`main().catch` handler (lines 146-149): sequential phase, then the concurrent
translation batch over the finalized accumulation list, then the summary and
the optional flashcards export.  Any error reaches the catch handler, which
prints it and exits 1. -/
def mainRun (C : Collaborators) (cfg : Config) : ProgResult :=
  match runSeqFrom C cfg.numPhrases { events := [], selected := [], stdout := [] } cfg.words with
  | (st, some e) =>
    { exit := 1, events := st.events, stdout := st.stdout
      stderr := ["An error occurred: " ++ e], fileWritten := none }
  | (st, none) =>
    let tevents := st.selected.map fun pt => Event.translateCall pt.phrase
    match translateAll C st.selected with
    | .error e =>
      { exit := 1, events := st.events ++ tevents, stdout := st.stdout
        stderr := ["An error occurred: " ++ e], fileWritten := none }
    | .ok translations =>
      let stdout1 := st.stdout ++ ["\nFinal Output:\n", outputContent translations]
      if cfg.flashcards then
        { exit := 0, events := st.events ++ tevents
          stdout := stdout1 ++ ["\nFlashcards file \"flashcards.txt\" has been generated.\n"]
          stderr := [], fileWritten := some (flashcardsContent translations) }
      else
        { exit := 0, events := st.events ++ tevents, stdout := stdout1
          stderr := [], fileWritten := none }

/-- The whole program: top-level validation, then `main()`. -/
def program (C : Collaborators) (inp : RawInput) : ProgResult :=
  match validateConfig inp with
  | .error e =>
    { exit := 1, events := [], stdout := [], stderr := [e], fileWritten := none }
  | .ok cfg => mainRun C cfg

/-- The trace of calls one word contributes when processed: the meaning call,
then (if it succeeded) the phrase-generation call, then (if that succeeded)
the selection call on the generated candidates. -/
def eventsFor (C : Collaborators) (n : Int) (w : String) : List Event :=
  match getWordMeaning C w with
  | .error _ => [.meaningCall w]
  | .ok _ =>
    match generatePhrases C w n with
    | .error _ => [.meaningCall w, .phrasesCall w n]
    | .ok ps => [.meaningCall w, .phrasesCall w n, .selectCall w ps]

/-- The PendingTranslations one word contributes when fully processed. -/
def pendingFor (C : Collaborators) (n : Int) (w : String) : List PendingTranslation :=
  match getWordMeaning C w with
  | .error _ => []
  | .ok m =>
    match generatePhrases C w n with
    | .error _ => []
    | .ok ps => (C.selectFrom w ps).map fun p => { phrase := p, meaning := m, word := w }

/-- The user's SelectionResult for one word, when its calls succeed. -/
def selectionFor (C : Collaborators) (n : Int) (w : String) : List String :=
  match getWordMeaning C w with
  | .error _ => []
  | .ok _ =>
    match generatePhrases C w n with
    | .error _ => []
    | .ok ps => C.selectFrom w ps

/-- The console lines one word contributes when processed far enough. -/
def stdoutFor (C : Collaborators) (w : String) : List String :=
  match getWordMeaning C w with
  | .error _ => []
  | .ok m => [meaningLine w m]

/-- Under a successful meaning lookup and phrase generation, the per-word
trace, accumulation contribution and selection take their three-call shape. -/
theorem perWord_ok (C : Collaborators) (n : Int) (w m : String) (ps : List String)
    (hm : getWordMeaning C w = .ok m) (hp : generatePhrases C w n = .ok ps) :
    eventsFor C n w = [.meaningCall w, .phrasesCall w n, .selectCall w ps] ∧
    pendingFor C n w =
      (C.selectFrom w ps).map (fun p => { phrase := p, meaning := m, word := w }) ∧
    selectionFor C n w = C.selectFrom w ps ∧
    stdoutFor C w = [meaningLine w m] := by
  simp [eventsFor, pendingFor, selectionFor, stdoutFor, hm, hp]

/-- A successful sequential phase appends, per word in input order, exactly
that word's trace block, PendingTranslations and console line, and every
word's meaning lookup and phrase generation succeeded. -/
theorem runSeqFrom_ok (C : Collaborators) (n : Int) (ws : List String) (st st' : SeqState)
    (h : runSeqFrom C n st ws = (st', none)) :
    st'.events = st.events ++ ws.flatMap (eventsFor C n) ∧
    st'.selected = st.selected ++ ws.flatMap (pendingFor C n) ∧
    st'.stdout = st.stdout ++ ws.flatMap (stdoutFor C) ∧
    ∀ w ∈ ws, ∃ m ps, getWordMeaning C w = .ok m ∧ generatePhrases C w n = .ok ps := by
  induction ws generalizing st with
  | nil =>
    simp only [runSeqFrom, Prod.mk.injEq] at h
    simp [← h.1]
  | cons w ws ih =>
    rcases hm : getWordMeaning C w with e | m
    · simp [runSeqFrom, processWord, hm] at h
    · rcases hp : generatePhrases C w n with e | ps
      · simp [runSeqFrom, processWord, hm, hp] at h
      · simp only [runSeqFrom, processWord, hm, hp] at h
        obtain ⟨h1, h2, h3, h4⟩ := ih _ h
        refine ⟨?_, ?_, ?_, ?_⟩
        · simp only [h1, List.flatMap_cons, eventsFor, hm, hp]
          simp [List.append_assoc]
        · simp only [h2, List.flatMap_cons, pendingFor, hm, hp]
          simp [List.append_assoc]
        · simp only [h3, List.flatMap_cons, stdoutFor, hm]
          simp [List.append_assoc]
        · intro v hv
          rcases List.mem_cons.mp hv with rfl | hv
          · exact ⟨m, ps, hm, hp⟩
          · exact h4 v hv

/-- A successful translation batch has one output per input, and the output at
each index is built from the input at the same index. -/
theorem translateAll_ok (C : Collaborators) (pts : List PendingTranslation)
    (out : List TranslationPair) (h : translateAll C pts = .ok out) :
    out.length = pts.length ∧
    ∀ i, i < pts.length →
      ∃ pt tp tr, pts[i]? = some pt ∧ out[i]? = some tp ∧
        translatePhrase C pt.phrase = .ok tr ∧
        tp = { english := pt.phrase, portuguese := tr, meaning := pt.meaning, word := pt.word } := by
  induction pts generalizing out with
  | nil =>
    simp only [translateAll, Except.ok.injEq] at h
    subst h
    simp
  | cons pt pts ih =>
    rcases h1 : translateOne C pt with e | tp
    · simp [translateAll, h1] at h
    · rcases h2 : translateAll C pts with e | tps
      · simp [translateAll, h1, h2] at h
      · simp only [translateAll, h1, h2, Except.ok.injEq] at h
        subst h
        obtain ⟨hlen, hcorr⟩ := ih tps h2
        rcases htr : translatePhrase C pt.phrase with e | tr
        · simp [translateOne, htr] at h1
        · simp only [translateOne, htr, Except.ok.injEq] at h1
          refine ⟨by simp [hlen], ?_⟩
          intro i hi
          match i with
          | 0 => exact ⟨pt, tp, tr, by simp, by simp, htr, h1.symm⟩
          | Nat.succ j =>
            have hj : j < pts.length := by
              simpa [Nat.succ_lt_succ_iff] using hi
            obtain ⟨pt2, tp2, tr2, ha, hb, hc, hd⟩ := hcorr j hj
            exact ⟨pt2, tp2, tr2, by simpa using ha, by simpa using hb, hc, hd⟩

/-- If any single pending translation's call fails, the whole batch fails. -/
theorem translateAll_error_of_mem (C : Collaborators) (pts : List PendingTranslation)
    (pt : PendingTranslation) (hmem : pt ∈ pts) (e : String)
    (hfail : translatePhrase C pt.phrase = .error e) :
    ∃ e2, translateAll C pts = .error e2 := by
  induction pts with
  | nil => simp at hmem
  | cons hd tl ih =>
    rcases List.mem_cons.mp hmem with rfl | hmem
    · refine ⟨e, ?_⟩
      simp [translateAll, translateOne, hfail]
    · obtain ⟨e2, he2⟩ := ih hmem
      rcases h1 : translateOne C hd with e3 | tp
      · exact ⟨e3, by simp [translateAll, h1]⟩
      · exact ⟨e2, by simp [translateAll, h1, he2]⟩

/-- Over words whose meaning and phrase-generation calls succeed, filtering the
sequential trace keeps exactly one meaning call and one phrase-generation call
per word, in list order. -/
theorem flatMap_filter_calls (C : Collaborators) (n : Int) (ws : List String)
    (hok : ∀ w ∈ ws, ∃ m ps, getWordMeaning C w = .ok m ∧ generatePhrases C w n = .ok ps) :
    (ws.flatMap (eventsFor C n)).filter Event.isMeaningCall = ws.map Event.meaningCall ∧
    (ws.flatMap (eventsFor C n)).filter Event.isPhrasesCall =
      ws.map (fun w => Event.phrasesCall w n) := by
  induction ws with
  | nil => simp
  | cons w ws ih =>
    obtain ⟨m, ps, hm, hp⟩ := hok w (List.mem_cons_self w ws)
    obtain ⟨ih1, ih2⟩ := ih fun v hv => hok v (List.mem_cons_of_mem w hv)
    constructor
    · simp [List.filter_append, eventsFor, hm, hp, Event.isMeaningCall, Event.isPhrasesCall, ih1]
    · simp [List.filter_append, eventsFor, hm, hp, Event.isMeaningCall, Event.isPhrasesCall, ih2]

/-- Translation-call events contribute nothing to the meaning-call or
phrase-generation-call counts. -/
theorem translateEvents_filter (l : List PendingTranslation) :
    ((l.map fun pt => Event.translateCall pt.phrase).filter Event.isMeaningCall = []) ∧
    ((l.map fun pt => Event.translateCall pt.phrase).filter Event.isPhrasesCall = []) := by
  induction l with
  | nil => simp
  | cons pt l ih => simp [Event.isMeaningCall, Event.isPhrasesCall, ih.1, ih.2]

/-- A backend response accepted by all three schemas: meaning "m", phrase list
["p"], translation "t". -/
def uniObj : Json :=
  Json.obj [("meaning", Json.str "m"), ("phrases", Json.arr [Json.str "p"]),
    ("translation", Json.str "t")]

/-- Collaborators answering every prompt with `uniObj` and selecting every
candidate. -/
def Cuni : Collaborators :=
  { llm := fun _ => .ok uniObj, selectFrom := fun _ ps => ps }

/-- The sequential state after processing the single word "a" against a
backend answering with `uniObj` and a user selecting everything. -/
def stA : SeqState :=
  { events := [.meaningCall "a", .phrasesCall "a" 5, .selectCall "a" ["p"]]
    selected := [{ phrase := "p", meaning := "m", word := "a" }]
    stdout := [meaningLine "a" "m"] }

/-- C1: for every finalized accumulation list of PendingTranslations, a
successful translation stage produces one output per input: the lengths agree,
and at every index i the i-th TranslationPair's word and meaning equal those of
the i-th PendingTranslation and its english field equals the i-th pending
phrase.  `Promise.all` keys result slots by submission index, modelled here as
an index-wise gather, so the correspondence is independent of the order in
which individual translation calls complete. -/
theorem c1_translation_batch_index_preserving (C : Collaborators)
    (pts : List PendingTranslation) (out : List TranslationPair)
    (h : translateAll C pts = .ok out) :
    out.length = pts.length ∧
    ∀ i, i < pts.length →
      ∃ pt tp, pts[i]? = some pt ∧ out[i]? = some tp ∧
        tp.word = pt.word ∧ tp.meaning = pt.meaning ∧ tp.english = pt.phrase := by
  obtain ⟨hlen, hcorr⟩ := translateAll_ok C pts out h
  refine ⟨hlen, fun i hi => ?_⟩
  obtain ⟨pt, tp, tr, ha, hb, hc, hd⟩ := hcorr i hi
  exact ⟨pt, tp, ha, hb, by simp [hd], by simp [hd], by simp [hd]⟩

/-- C1 witness: a concrete one-element batch, with the hypothesis discharged by
evaluation. -/
theorem c1_witness :
    ([{ english := "p", portuguese := "t", meaning := "m", word := "a" }] :
        List TranslationPair).length =
      ([{ phrase := "p", meaning := "m", word := "a" }] : List PendingTranslation).length :=
  (c1_translation_batch_index_preserving Cuni
    [{ phrase := "p", meaning := "m", word := "a" }]
    [{ english := "p", portuguese := "t", meaning := "m", word := "a" }] rfl).1

/-- C4: when the sequential phase of a run completes without collaborator
failure, the pipeline's call trace contains exactly one meaning call and one
phrase-generation call per input word, in input order (duplicate words
processed independently), and each word contributes the strictly ordered block
meaning call, then phrase-generation call, then selection call. -/
theorem c4_calls_per_word_in_order (C : Collaborators) (cfg : Config) (st : SeqState)
    (hseq : runSeqFrom C cfg.numPhrases { events := [], selected := [], stdout := [] }
      cfg.words = (st, none)) :
    (mainRun C cfg).events.filter Event.isMeaningCall = cfg.words.map Event.meaningCall ∧
    (mainRun C cfg).events.filter Event.isPhrasesCall =
      cfg.words.map (fun w => Event.phrasesCall w cfg.numPhrases) ∧
    st.events = cfg.words.flatMap (eventsFor C cfg.numPhrases) ∧
    ∀ w ∈ cfg.words, ∃ m ps,
      getWordMeaning C w = .ok m ∧ generatePhrases C w cfg.numPhrases = .ok ps ∧
      eventsFor C cfg.numPhrases w =
        [Event.meaningCall w, Event.phrasesCall w cfg.numPhrases, Event.selectCall w ps] := by
  obtain ⟨h1, h2, h3, h4⟩ := runSeqFrom_ok C cfg.numPhrases cfg.words _ st hseq
  simp only [List.nil_append] at h1 h2 h3
  have hmain : (mainRun C cfg).events =
      st.events ++ st.selected.map fun pt => Event.translateCall pt.phrase := by
    unfold mainRun
    rw [hseq]
    rcases htr : translateAll C st.selected with e | trs
    · simp [htr]
    · rcases hfb : cfg.flashcards <;> simp [htr, hfb]
  have hfm := flatMap_filter_calls C cfg.numPhrases cfg.words h4
  have htf := translateEvents_filter st.selected
  refine ⟨?_, ?_, h1, fun w hw => ?_⟩
  · rw [hmain, List.filter_append, h1, hfm.1, htf.1, List.append_nil]
  · rw [hmain, List.filter_append, h1, hfm.2, htf.2, List.append_nil]
  · obtain ⟨m, ps, hm, hp⟩ := h4 w hw
    exact ⟨m, ps, hm, hp, (perWord_ok C cfg.numPhrases w m ps hm hp).1⟩

/-- C4 witness: a duplicated word list, each occurrence processed
independently. -/
theorem c4_witness :
    (mainRun Cuni { words := ["a", "a"], numPhrases := 5, flashcards := false }).events.filter
        Event.isMeaningCall =
      [Event.meaningCall "a", Event.meaningCall "a"] :=
  (c4_calls_per_word_in_order Cuni { words := ["a", "a"], numPhrases := 5, flashcards := false }
    { events := [.meaningCall "a", .phrasesCall "a" 5, .selectCall "a" ["p"],
        .meaningCall "a", .phrasesCall "a" 5, .selectCall "a" ["p"]]
      selected := [{ phrase := "p", meaning := "m", word := "a" },
        { phrase := "p", meaning := "m", word := "a" }]
      stdout := [meaningLine "a" "m", meaningLine "a" "m"] } rfl).1

/-- C8: at the end of a successful sequential phase, the accumulation list is
exactly the concatenation, in input order, of each word's contribution; its
length is the sum over all words of that word's SelectionResult size; each
entry is tagged with its originating word's meaning; and the translation stage
consumes exactly this finalized list — its calls appear in the trace only
after every sequential-phase call, so nothing else appends before it is read. -/
theorem c8_accumulation_invariant (C : Collaborators) (cfg : Config) (st : SeqState)
    (hseq : runSeqFrom C cfg.numPhrases { events := [], selected := [], stdout := [] }
      cfg.words = (st, none)) :
    st.selected = cfg.words.flatMap (pendingFor C cfg.numPhrases) ∧
    st.selected.length =
      (cfg.words.map fun w => (selectionFor C cfg.numPhrases w).length).sum ∧
    (∀ w ∈ cfg.words, ∃ m ps,
      getWordMeaning C w = .ok m ∧ generatePhrases C w cfg.numPhrases = .ok ps ∧
      pendingFor C cfg.numPhrases w =
        (C.selectFrom w ps).map fun p => { phrase := p, meaning := m, word := w }) ∧
    (mainRun C cfg).events =
      st.events ++ st.selected.map fun pt => Event.translateCall pt.phrase := by
  obtain ⟨h1, h2, h3, h4⟩ := runSeqFrom_ok C cfg.numPhrases cfg.words _ st hseq
  simp only [List.nil_append] at h1 h2 h3
  have hlen : ∀ w ∈ cfg.words,
      (pendingFor C cfg.numPhrases w).length = (selectionFor C cfg.numPhrases w).length := by
    intro w hw
    obtain ⟨m, ps, hm, hp⟩ := h4 w hw
    obtain ⟨-, hpend, hsel, -⟩ := perWord_ok C cfg.numPhrases w m ps hm hp
    rw [hpend, hsel, List.length_map]
  refine ⟨h2, ?_, fun w hw => ?_, ?_⟩
  · rw [h2, List.length_flatMap]
    exact congrArg List.sum (List.map_congr_left fun w hw => hlen w hw)
  · obtain ⟨m, ps, hm, hp⟩ := h4 w hw
    exact ⟨m, ps, hm, hp, (perWord_ok C cfg.numPhrases w m ps hm hp).2.1⟩
  · unfold mainRun
    rw [hseq]
    rcases htr : translateAll C st.selected with e | trs
    · simp [htr]
    · rcases hfb : cfg.flashcards <;> simp [htr, hfb]

/-- C8 witness: one word, everything selected. -/
theorem c8_witness :
    stA.selected = (["a"] : List String).flatMap (pendingFor Cuni 5) :=
  (c8_accumulation_invariant Cuni { words := ["a"], numPhrases := 5, flashcards := false }
    stA rfl).1

/-- C2: when the flashcards flag is set and the sequential and translation
stages both succeeded, the exported file content is exactly the three fixed
header lines followed by one data line per TranslationPair — the quoted
English phrase with the word in the inline style span, a tab, then the
meaning — joined by single newlines with nothing after the last line, so the
file has 3 + (number of TranslationPairs) lines. -/
theorem c2_export_file_format (C : Collaborators) (cfg : Config) (st : SeqState)
    (trs : List TranslationPair)
    (hseq : runSeqFrom C cfg.numPhrases { events := [], selected := [], stdout := [] }
      cfg.words = (st, none))
    (htr : translateAll C st.selected = .ok trs)
    (hf : cfg.flashcards = true) :
    (mainRun C cfg).fileWritten =
      some (String.intercalate "\n"
        (["#separator:tab", "#html:true", "#tags column:3"] ++
          trs.map fun pair =>
            "\"" ++ pair.english ++ " <b><span style=\"color: rgb(0, 0, 255);\">" ++
              pair.word ++ "</span></b>\"" ++ "\t" ++ pair.meaning)) ∧
    (["#separator:tab", "#html:true", "#tags column:3"] ++
        trs.map fun pair =>
          "\"" ++ pair.english ++ " <b><span style=\"color: rgb(0, 0, 255);\">" ++
            pair.word ++ "</span></b>\"" ++ "\t" ++ pair.meaning).length = 3 + trs.length := by
  constructor
  · unfold mainRun
    rw [hseq]
    simp only [htr, hf, if_true]
    rfl
  · simp only [List.length_append, List.length_map, List.length_cons, List.length_nil]

/-- C2 witness: one translated pair, concrete exported content. -/
theorem c2_witness :
    (mainRun Cuni { words := ["a"], numPhrases := 5, flashcards := true }).fileWritten =
      some "#separator:tab\n#html:true\n#tags column:3\n\"p <b><span style=\"color: rgb(0, 0, 255);\">a</span></b>\"\tm" := by
  have h := (c2_export_file_format Cuni { words := ["a"], numPhrases := 5, flashcards := true }
    stA [{ english := "p", portuguese := "t", meaning := "m", word := "a" }] rfl rfl rfl).1
  exact h.trans rfl

/-- Collaborators that answer meaning and phrase prompts normally but fail the
translation call for the phrase "p". -/
def CtransFail : Collaborators :=
  { llm := fun p => if p = translatePrompt "p" then .error "boom" else .ok uniObj
    selectFrom := fun _ ps => ps }

/-- C5: if any single translation call in the batch fails, the whole batch
aborts: the process exits with status 1, no export file is written (whatever
the flashcards flag says), and no partial translation results reach the
console — the output stops at the sequential phase's meaning announcements. -/
theorem c5_translation_failure_aborts (C : Collaborators) (inp : RawInput) (cfg : Config)
    (st : SeqState) (pt : PendingTranslation) (e : String)
    (hv : validateConfig inp = .ok cfg)
    (hseq : runSeqFrom C cfg.numPhrases { events := [], selected := [], stdout := [] }
      cfg.words = (st, none))
    (hmem : pt ∈ st.selected) (hfail : translatePhrase C pt.phrase = .error e) :
    (program C inp).exit = 1 ∧ (program C inp).fileWritten = none ∧
      (program C inp).stdout = st.stdout := by
  obtain ⟨e2, he2⟩ := translateAll_error_of_mem C st.selected pt hmem e hfail
  have hprog : program C inp = mainRun C cfg := by
    unfold program
    rw [hv]
  rw [hprog]
  unfold mainRun
  rw [hseq]
  simp [he2]

/-- C5 witness: a run with the flashcards flag set whose single translation
call fails: exit 1, no file, console stops after the meaning line. -/
theorem c5_witness :
    (program CtransFail
        { wOpt := some "a", nOpt := none, flashcards := true, credentialPresent := true }).exit =
        1 ∧
      (program CtransFail
        { wOpt := some "a", nOpt := none, flashcards := true, credentialPresent := true }).fileWritten =
        none ∧
      (program CtransFail
        { wOpt := some "a", nOpt := none, flashcards := true, credentialPresent := true }).stdout =
        stA.stdout :=
  c5_translation_failure_aborts CtransFail
    { wOpt := some "a", nOpt := none, flashcards := true, credentialPresent := true }
    { words := ["a"], numPhrases := 5, flashcards := true } stA
    { phrase := "p", meaning := "m", word := "a" } "boom" rfl rfl (by simp [stA]) rfl

/-- C6: when the interactive selection for a word returns the empty subset
(while its meaning and phrase calls succeeded), that word appends zero
PendingTranslations to the accumulation list, the iteration ends without
error, and the loop continues with the next words. -/
theorem c6_empty_selection_continues (C : Collaborators) (n : Int) (st : SeqState)
    (w m : String) (ps : List String) (rest : List String)
    (hm : getWordMeaning C w = .ok m) (hp : generatePhrases C w n = .ok ps)
    (hs : C.selectFrom w ps = []) :
    (processWord C n st w).2 = none ∧
    (processWord C n st w).1.selected = st.selected ∧
    runSeqFrom C n st (w :: rest) = runSeqFrom C n (processWord C n st w).1 rest := by
  refine ⟨?_, ?_, ?_⟩ <;> simp [runSeqFrom, processWord, hm, hp, hs]

/-- Collaborators whose user never selects any phrase. -/
def CselNone : Collaborators :=
  { llm := fun _ => .ok uniObj, selectFrom := fun _ _ => [] }

/-- C6 witness: empty selection on the first of two words. -/
theorem c6_witness :
    (processWord CselNone 5 { events := [], selected := [], stdout := [] } "a").2 = none ∧
    (processWord CselNone 5 { events := [], selected := [], stdout := [] } "a").1.selected =
      ([] : List PendingTranslation) ∧
    runSeqFrom CselNone 5 { events := [], selected := [], stdout := [] } ["a", "b"] =
      runSeqFrom CselNone 5
        (processWord CselNone 5 { events := [], selected := [], stdout := [] } "a").1 ["b"] :=
  c6_empty_selection_continues CselNone 5 { events := [], selected := [], stdout := [] }
    "a" "m" ["p"] ["b"] rfl rfl rfl

/-- C3: for every raw input, the program fails before any collaborator call —
with a descriptive message on standard error, exit status 1 and an empty call
trace — exactly when the computed word list is empty, or the computed phrase
count is non-numeric (NaN) or at most 0, or the provider credential is absent;
otherwise validation succeeds and the run proceeds to the pipeline. -/
theorem c3_validation_gate (inp : RawInput) (C : Collaborators) :
    ((∃ e, validateConfig inp = .error e) ↔
      (inp.credentialPresent = false ∨ wordsOf inp = [] ∨ numPhrasesOf inp = none ∨
        ∃ n, numPhrasesOf inp = some n ∧ n ≤ 0)) ∧
    (∀ e, validateConfig inp = .error e →
      program C inp =
        { exit := 1, events := [], stdout := [], stderr := [e], fileWritten := none }) ∧
    (∀ cfg, validateConfig inp = .ok cfg → program C inp = mainRun C cfg) := by
  refine ⟨⟨?_, ?_⟩, fun e he => ?_, fun cfg hc => ?_⟩
  · rintro ⟨e, he⟩
    unfold validateConfig at he
    split at he
    · next h1 => exact Or.inl h1
    · split at he
      · next h2 => exact Or.inr (Or.inl (List.length_eq_zero.mp h2))
      · split at he
        · next h3 => exact Or.inr (Or.inr (Or.inl h3))
        · next n h3 =>
          split at he
          · next h4 => exact Or.inr (Or.inr (Or.inr ⟨n, h3, h4⟩))
          · exact absurd he (by simp)
  · intro h
    by_cases h1 : inp.credentialPresent = false
    · exact ⟨"Please set the DEEPSEEK_API_KEY environment variable.",
        by simp [validateConfig, h1]⟩
    by_cases h2 : wordsOf inp = []
    · exact ⟨"No words provided. Please provide a list of words using the -w flag.",
        by simp [validateConfig, h1, h2]⟩
    rcases h with h | h | h | ⟨n, hn, hle⟩
    · exact absurd h h1
    · exact absurd h h2
    · exact ⟨"Please provide a valid number of phrases using the -n flag.",
        by simp [validateConfig, h1, h2, h]⟩
    · exact ⟨"Please provide a valid number of phrases using the -n flag.",
        by simp [validateConfig, h1, h2, hn, hle]⟩
  · unfold program
    rw [he]
  · unfold program
    rw [hc]

/-- The raw input of `-w a -n 0`: credential present, phrase count 0. -/
def inpZeroCount : RawInput :=
  { wOpt := some "a", nOpt := some "0", flashcards := false, credentialPresent := true }

/-- C3 witness: `-n 0` is rejected with exit status 1 and zero collaborator
calls. -/
theorem c3_witness :
    program Cuni inpZeroCount =
      { exit := 1, events := [], stdout := []
        stderr := ["Please provide a valid number of phrases using the -n flag."]
        fileWritten := none } :=
  (c3_validation_gate inpZeroCount Cuni).2.1 _ rfl

/-- A backend response whose `phrases` array holds two strings. -/
def twoPhrasesObj : Json :=
  Json.obj [("phrases", Json.arr [Json.str "a", Json.str "b"])]

/-- Collaborators whose backend always returns a two-string phrase array. -/
def CtwoPhrases : Collaborators :=
  { llm := fun _ => .ok twoPhrasesObj, selectFrom := fun _ ps => ps }

/-- C7 counterexample: called with count 1, generatePhrases returns the
backend's two-string list — the claimed bound "at most count strings" fails,
because the zod schema `z.array(z.string())` checks element types only and the
count appears only in the prompt text. -/
theorem c7_counterexample :
    generatePhrases CtwoPhrases "x" 1 = Except.ok ["a", "b"] ∧
      ¬ ((["a", "b"] : List String).length ≤ 1) :=
  ⟨rfl, by decide⟩

/-- C7 amended: for every word and count, generatePhrases(word, count) returns
exactly the ordered list of strings in the backend response's `phrases` field,
of unconstrained length (the count influences only the prompt), and fails with
a ServiceError when the backend call fails or the response does not match the
schema. -/
theorem c7_phrases_passthrough (C : Collaborators) (word : String) (n : Int)
    (ps : List String) :
    generatePhrases C word n = .ok ps ↔
      ∃ j, C.llm (phrasesPrompt word n) = .ok j ∧ parsePhrasesObject j = some ps := by
  unfold generatePhrases
  rcases h : C.llm (phrasesPrompt word n) with e | j
  · simp
  · rcases hp : parsePhrasesObject j with _ | qs <;> simp [hp]

/-- C7 amended witness: the two-string response is passed through verbatim. -/
theorem c7_witness :
    ∃ j, CtwoPhrases.llm (phrasesPrompt "x" 1) = Except.ok j ∧
      parsePhrasesObject j = some ["a", "b"] :=
  (c7_phrases_passthrough CtwoPhrases "x" 1 ["a", "b"]).mp rfl

/-- The raw input of `-w a,,b` with the credential present. -/
def inpEmptySeg : RawInput :=
  { wOpt := some "a,,b", nOpt := none, flashcards := false, credentialPresent := true }

/-- C9: splitting the `-w` value on commas preserves empty segments: the input
`a,,b` yields the word list ["a", "", "b"], which passes validation since the
list is non-empty, and the empty-string word gets its own meaning lookup,
phrase generation and selection calls exactly like the other words (run here
against a backend that answers every prompt). -/
theorem c9_empty_segment_word_processed :
    wordsOf inpEmptySeg = ["a", "", "b"] ∧
    validateConfig inpEmptySeg =
      Except.ok { words := ["a", "", "b"], numPhrases := 5, flashcards := false } ∧
    (program Cuni inpEmptySeg).exit = 0 ∧
    (program Cuni inpEmptySeg).events =
      [Event.meaningCall "a", Event.phrasesCall "a" 5, Event.selectCall "a" ["p"],
       Event.meaningCall "", Event.phrasesCall "" 5, Event.selectCall "" ["p"],
       Event.meaningCall "b", Event.phrasesCall "b" 5, Event.selectCall "b" ["p"],
       Event.translateCall "p", Event.translateCall "p", Event.translateCall "p"] :=
  ⟨rfl, rfl, rfl, rfl⟩

/-- C10: the pipeline is deterministic — two runs with the same raw input
(flags, environment) and pointwise-identical collaborator responses produce
identical observable results: exit status, call trace, console output and
exported file content. -/
theorem c10_deterministic (Ca Cb : Collaborators) (inp : RawInput)
    (hllm : ∀ p, Ca.llm p = Cb.llm p)
    (hsel : ∀ w ps, Ca.selectFrom w ps = Cb.selectFrom w ps) :
    program Ca inp = program Cb inp := by
  have h : Ca = Cb := by
    cases Ca
    cases Cb
    simp only [Collaborators.mk.injEq]
    exact ⟨funext hllm, funext fun w => funext (hsel w)⟩
  rw [h]

/-- C10 witness: two syntactically different but pointwise-equal collaborator
records give the same result. -/
theorem c10_witness :
    program Cuni inpZeroCount =
      program { llm := fun _ => .ok uniObj, selectFrom := fun _ ps => ps } inpZeroCount :=
  c10_deterministic Cuni { llm := fun _ => .ok uniObj, selectFrom := fun _ ps => ps }
    inpZeroCount (fun _ => rfl) (fun _ _ => rfl)
